import Mathlib

/-!
Verification of the multi-session terminal subsystem of the mermaid.me
repository: the PTY Manager (process-side registry, `ptyManager` service),
the terminal IPC handlers (control plane with the per-workspace durable
state store), and the Session Host (`TerminalPanel` component: session
list, naming counter, active pointer, persistence and restore).

The definitions below are a shallow embedding of the TypeScript source:
JavaScript `Map`s and record objects keyed by id become association lists,
`crypto.randomUUID()` freshness becomes an explicit fresh-id counter, the
xterm buffer of a session becomes a `String`, and the debounced persistence
timer becomes an explicit timed-trace function.
-/

/- ============================================================ -/
/- Session Manager: the `PtyManager` class (ptyManager service) -/
/- ============================================================ -/

/-- One spawned pseudo-terminal process, as far as the registry observes it:
the stream of data chunks forwarded to its stdin by `write`, and a flag
saying whether its OS-level `kill()` call raises (modelling the `try/catch`
around `terminal.kill()` in `kill` / `killAll`). -/
structure PtyProcess where
  writtenData : List String
  killRaises : Bool
deriving Repr, DecidableEq

/-- The `PtyManager` registry: `private terminals: Map<string, IPty>`,
kept as an ordered association list from terminal id to process. -/
structure PtyManagerState where
  terminals : List (String × PtyProcess)
deriving Repr, DecidableEq

/-- Association-list lookup with `String` keys (JS `Map.get`). -/
def assocFindS {α : Type} (k : String) : List (String × α) → Option α
  | [] => none
  | (k', v) :: rest => if k' = k then some v else assocFindS k rest

/-- `count()`: size of the live registry (`this.terminals.size`). -/
def PtyManagerState.count (m : PtyManagerState) : Nat :=
  m.terminals.length

/-- `has(id)`: registry membership (`this.terminals.has(id)`). -/
def PtyManagerState.hasId (m : PtyManagerState) (id : String) : Bool :=
  (assocFindS id m.terminals).isSome

/-- Append one stdin chunk to the entry with the given id, leaving every
other entry untouched (the effect of `terminal.write(data)` on the one
process found by `Map.get`). -/
def updateStream (id : String) (data : String) :
    List (String × PtyProcess) → List (String × PtyProcess)
  | [] => []
  | (k, p) :: rest =>
      if k = id then (k, { p with writtenData := p.writtenData ++ [data] }) :: rest
      else (k, p) :: updateStream id data rest

/-- `PtyManager.write(id, data)`: look the id up in the registry; if a
process is found, forward the chunk to its stdin; otherwise do nothing
(the source's `if (terminal) { terminal.write(data); }`). -/
def PtyManagerState.write (m : PtyManagerState) (id : String) (data : String) :
    PtyManagerState :=
  match assocFindS id m.terminals with
  | some _ => ⟨updateStream id data m.terminals⟩
  | none => m

/-- The recorded stdin stream of a session, `none` when the id is not
registered. -/
def PtyManagerState.streamOf (m : PtyManagerState) (id : String) :
    Option (List String) :=
  (assocFindS id m.terminals).map (·.writtenData)

/-- The outcome of one `terminal.kill()` call: raises or succeeds. -/
def killResult (p : PtyProcess) : Except String Unit :=
  if p.killRaises then Except.error "kill failed" else Except.ok ()

/-- The loop body of `killAll()`: iterate over every registry entry, call
`kill()` inside `try/catch`, and collect the caught error messages (the
source logs them with `console.error` and continues). -/
def killAllLog : List (String × PtyProcess) → List String
  | [] => []
  | (id, p) :: rest =>
      match killResult p with
      | Except.error msg => (id ++ ": " ++ msg) :: killAllLog rest
      | Except.ok _ => killAllLog rest

/-- `PtyManager.killAll()`: best-effort kill of every registered session
(errors caught and logged, never propagated), then `this.terminals.clear()`
unconditionally. Returns the cleared registry and the log of caught
failures. -/
def PtyManagerState.killAll (m : PtyManagerState) :
    PtyManagerState × List String :=
  (⟨[]⟩, killAllLog m.terminals)

/- ============================================================ -/
/- Theorems for the Session Manager claims                      -/
/- ============================================================ -/

/-- C5: for every registry state — zero, one, or many registered sessions —
`killAll()` leaves `count() == 0`: the registry is unconditionally cleared
afterward even if some individual kill calls raised (the clearing happens
after the catch-all loop, independent of how many entries produced a
caught error). -/
theorem killAll_count_zero (m : PtyManagerState) :
    (m.killAll).1.count = 0 := rfl

/-- C9: for every id not present in the live registry and every data
payload, `write(id, data)` is a no-op: it does not raise (it is a total
function returning a registry), it leaves the registry unchanged, and in
particular every other session's recorded stdin stream is unchanged. -/
theorem write_unknown_id_noop (m : PtyManagerState) (id data : String)
    (h : assocFindS id m.terminals = none) :
    m.write id data = m ∧
      ∀ id', (m.write id data).streamOf id' = m.streamOf id' := by
  constructor
  · unfold PtyManagerState.write
    rw [h]
  · intro id'
    unfold PtyManagerState.write
    rw [h]

/-- Witness for C9 at a concrete registry: one live session `"a"`, a write
to the absent id `"b"` leaves the state, and session `"a"`'s stream,
unchanged. -/
theorem write_unknown_id_noop_witness :
    assocFindS "b" (PtyManagerState.mk [("a", ⟨["x"], false⟩)]).terminals = none ∧
      (PtyManagerState.mk [("a", ⟨["x"], false⟩)]).write "b" "y"
        = PtyManagerState.mk [("a", ⟨["x"], false⟩)] := by
  refine ⟨by decide, ?_⟩
  exact (write_unknown_id_noop (PtyManagerState.mk [("a", ⟨["x"], false⟩)])
    "b" "y" (by decide)).1

/- ============================================================ -/
/- Session Host: the `TerminalPanel` component                  -/
/- ============================================================ -/

/-- One entry of the `terminals` state array: `TerminalTab` from the
source (`{id, name, isInitialized}`). The opaque `crypto.randomUUID()`
string id is modelled as a `Nat` drawn from a fresh-id counter. -/
structure TerminalTab where
  id : Nat
  name : String
  isInitialized : Bool
deriving Repr, DecidableEq

/-- An xterm.js instance as the Session Host observes it: the text written
into its buffer. The 1000-line serialization cap is an external
terminal-emulation concern, so `serialize` is modelled as reading the
buffer verbatim. -/
structure XtermInstance where
  buffer : String
deriving Repr, DecidableEq

/-- One persisted terminal record: `{id, name, cwd, scrollback}`. -/
structure TerminalInfo where
  id : Nat
  name : String
  cwd : String
  scrollback : String
deriving Repr, DecidableEq

/-- The per-workspace persisted record `TerminalStateData`:
`{terminals, activeIndex, nextTerminalNumber}`. `activeIndex` is an `Int`
because the source stores the result of `Array.findIndex`, which is `-1`
when the active terminal is not among the saved ones. -/
structure TerminalStateData where
  terminals : List TerminalInfo
  activeIndex : Int
  nextTerminalNumber : Nat
deriving Repr, DecidableEq

/-- The durable key-value store `terminalStatesByWorkspace`, keyed by
workspace path. -/
abbrev Store := List (String × TerminalStateData)

/-- `terminal:get-state`: read the workspace's record, `null` if absent. -/
def storeGet (store : Store) (w : String) : Option TerminalStateData :=
  assocFindS w store

/-- `terminal:save-state`: `terminalStates[workspace] = state` followed by
`store.set(...)` replaces the workspace's record wholesale; the prepended
entry shadows any older entry for the same key under `storeGet`. -/
def storeSet (store : Store) (w : String) (st : TerminalStateData) : Store :=
  (w, st) :: store

/-- Association-list lookup with `Nat` keys (a JS record object keyed by
terminal id). -/
def assocFindN {α : Type} (k : Nat) : List (Nat × α) → Option α
  | [] => none
  | (k', v) :: rest => if k' = k then some v else assocFindN k rest

/-- `delete obj[id]` on a JS record object keyed by terminal id. -/
def assocEraseN {α : Type} (k : Nat) : List (Nat × α) → List (Nat × α)
  | [] => []
  | (k', v) :: rest =>
      if k' = k then assocEraseN k rest else (k', v) :: assocEraseN k rest

/-- The whole Session Host state: the `terminals` array, active pointer and
naming counter (React state), the mutable ref records (`xtermRefs`,
`serializeAddonRefs`, `savedScrollbackRefs`), the set of ids whose PTY
process is live, a fresh-id counter standing for `crypto.randomUUID()`,
and the current workspace. -/
structure HostState where
  terminals : List TerminalTab
  activeTerminalId : Option Nat
  nextTerminalNumber : Nat
  xterms : List (Nat × XtermInstance)
  serializeAddons : List Nat
  savedScrollbacks : List (Nat × String)
  ptyLive : List Nat
  freshId : Nat
  workspace : Option String
deriving Repr, DecidableEq

/-- `serializeScrollback(terminalId)`: if a serialize addon is registered
for the id, capture the buffer (failure is caught and yields `""`);
otherwise return `""`. -/
def serializeScrollback (s : HostState) (tid : Nat) : String :=
  if s.serializeAddons.contains tid then
    match assocFindN tid s.xterms with
    | some x => x.buffer
    | none => ""
  else ""

/-- The `{id, name, cwd, scrollback}` record that `saveTerminalStateImmediate`
builds for one saved terminal. -/
def mkTerminalInfo (s : HostState) (w : String) (t : TerminalTab) : TerminalInfo :=
  ⟨t.id, t.name, w, serializeScrollback s t.id⟩

/-- JS `Array.prototype.findIndex`: the index of the first element
satisfying the predicate, `-1` when there is none. -/
def findIndex {α : Type} (p : α → Bool) : List α → Int
  | [] => -1
  | x :: rest =>
      if p x then 0
      else
        let r := findIndex p rest
        if r < 0 then -1 else r + 1

/-- `saveTerminalStateImmediate()`: return unchanged when there is no
workspace or no terminals; keep only the terminals whose serialize addon
exists (initialization completed); skip the save entirely when none
qualify; otherwise overwrite the workspace's record with the filtered
terminals, the active terminal's index among the saved ones (`-1` when the
active terminal was not saved), and the naming counter. -/
def saveTerminalStateImmediate (s : HostState) (store : Store) : Store :=
  match s.workspace with
  | none => store
  | some w =>
      if s.terminals.isEmpty then store
      else
        let toSave := s.terminals.filter (fun t => s.serializeAddons.contains t.id)
        if toSave.isEmpty then store
        else
          storeSet store w
            { terminals := toSave.map (mkTerminalInfo s w),
              activeIndex := findIndex (fun t => some t.id = s.activeTerminalId) toSave,
              nextTerminalNumber := s.nextTerminalNumber }

/-- `addTerminal()`: allocate a fresh id, name the tab
`"Terminal " ++ counter`, append it, activate it, increment the counter. -/
def addTerminal (s : HostState) : HostState :=
  let newTab : TerminalTab := ⟨s.freshId, "Terminal " ++ toString s.nextTerminalNumber, false⟩
  { s with
    terminals := s.terminals ++ [newTab],
    activeTerminalId := some newTab.id,
    nextTerminalNumber := s.nextTerminalNumber + 1,
    freshId := s.freshId + 1 }

/-- `switchTerminal(terminalId)`: changes only the active pointer (the
focus call is a UI side effect with no model state). -/
def switchTerminal (tid : Nat) (s : HostState) : HostState :=
  { s with activeTerminalId := some tid }

/-- `removeTerminal(terminalId)`: dispose the xterm and drop every ref for
the id (the pending-scrollback ref is deliberately not touched, as in the
source), request the PTY kill, filter the tab out of the list, and move
activation to the last remaining tab when the removed one was active. -/
def removeTerminal (tid : Nat) (s : HostState) : HostState :=
  let remaining := s.terminals.filter (fun t => t.id ≠ tid)
  { s with
    xterms := assocEraseN tid s.xterms,
    serializeAddons := s.serializeAddons.filter (fun i => i ≠ tid),
    ptyLive := s.ptyLive.filter (fun i => i ≠ tid),
    terminals := remaining,
    activeTerminalId :=
      if s.activeTerminalId = some tid then (remaining.getLast?).map (·.id)
      else s.activeTerminalId }

/-- The tabs built by `loadSavedState` for the saved records, in saved
order, each with a fresh id from the counter (`crypto.randomUUID()` per
element) and `isInitialized := false`. -/
def restoredTabs (base : Nat) : List TerminalInfo → List TerminalTab
  | [] => []
  | info :: rest => ⟨base, info.name, false⟩ :: restoredTabs (base + 1) rest

/-- The `savedScrollbackRefs` entries written by `loadSavedState`: the
saved scrollback of each record, keyed by the same fresh id as its tab. -/
def restoredPendings (base : Nat) : List TerminalInfo → List (Nat × String)
  | [] => []
  | info :: rest => (base, info.scrollback) :: restoredPendings (base + 1) rest

/-- `loadSavedState()`: with a workspace whose store record exists and has
at least one terminal, recreate the tabs in saved order with fresh ids,
stash each saved scrollback as a pending payload, take the saved naming
counter, and activate the tab at the saved index when it is in range
`[0, len)`, the tab at index `0` otherwise. In every other case
(no workspace, no record, empty record) fall through to `addTerminal()`. -/
def loadSavedState (s : HostState) (store : Store) : HostState :=
  match s.workspace with
  | some w =>
      match storeGet store w with
      | some saved =>
          if saved.terminals.length > 0 then
            let restored := restoredTabs s.freshId saved.terminals
            let idx : Nat :=
              if 0 ≤ saved.activeIndex ∧ saved.activeIndex < (saved.terminals.length : Int)
              then saved.activeIndex.toNat else 0
            { s with
              terminals := restored,
              savedScrollbacks := restoredPendings s.freshId saved.terminals ++ s.savedScrollbacks,
              nextTerminalNumber := saved.nextTerminalNumber,
              activeTerminalId := (restored.get? idx).map (·.id),
              freshId := s.freshId + saved.terminals.length }
          else addTerminal s
      | none => addTerminal s
  | none => addTerminal s

/-- One user-level session removal while the panel is open: `removeTerminal`
followed by the React effect that re-runs when the terminal list becomes
empty and calls `loadSavedState` (the auto-save effect is skipped at zero
terminals, so the store is read as it was). -/
def removeSession (store : Store) (tid : Nat) (s : HostState) : HostState :=
  let s' := removeTerminal tid s
  if s'.terminals.isEmpty then loadSavedState s' store else s'

/-- The restoration-boundary marker appended after a replayed scrollback. -/
def restorationMarker : String :=
  "\r\n\x1b[90m--- Session restored ---\x1b[0m\r\n\r\n"

/-- The inline error text written into the buffer when the PTY spawn
fails. -/
def spawnFailureText : String :=
  "\x1b[31mFailed to create terminal\x1b[0m\r\n"

/-- The source's guard `if (savedScrollback && savedScrollback.length > 0)`:
the pending payload is replayed only when present and nonempty. -/
def pendingText : Option String → Option String
  | some sb => if sb.length > 0 then some sb else none
  | none => none

/-- The first phase of `initializeTerminal`: create the xterm with an empty
buffer, replay the pending scrollback followed by the restoration marker
when one is stashed (deleting the ref right after use), and register the
serialize addon. All of this happens before the PTY is connected. -/
def attachScrollback (tid : Nat) (s : HostState) : HostState :=
  match pendingText (assocFindN tid s.savedScrollbacks) with
  | some sb =>
      { s with
        xterms := (tid, XtermInstance.mk (sb ++ restorationMarker)) :: s.xterms,
        savedScrollbacks := assocEraseN tid s.savedScrollbacks,
        serializeAddons := tid :: s.serializeAddons }
  | none =>
      { s with
        xterms := (tid, XtermInstance.mk "") :: s.xterms,
        serializeAddons := tid :: s.serializeAddons }

/-- Append text to one terminal's buffer (`term.write`), other buffers
untouched. -/
def appendBuffer (tid : Nat) (text : String) :
    List (Nat × XtermInstance) → List (Nat × XtermInstance)
  | [] => []
  | (k, x) :: rest =>
      if k = tid then (k, XtermInstance.mk (x.buffer ++ text)) :: rest
      else (k, x) :: appendBuffer tid text rest

/-- The second phase of `initializeTerminal`: `await terminalCreate(...)`.
On success the id becomes live and its tab is marked initialized; on a
spawn failure the inline error text is written into the buffer and the tab
stays uninitialized. -/
def connectPty (ok : Bool) (tid : Nat) (s : HostState) : HostState :=
  if ok then
    { s with
      ptyLive := tid :: s.ptyLive,
      terminals := s.terminals.map (fun t =>
        if t.id = tid then { t with isInitialized := true } else t) }
  else
    { s with xterms := appendBuffer tid spawnFailureText s.xterms }

/-- `initializeTerminal(terminalId, container)`: skip entirely when an
xterm already exists for the id; otherwise replay the scrollback phase and
then connect the PTY (`ok` is the spawn outcome). -/
def initializeTerminal (ok : Bool) (tid : Nat) (s : HostState) : HostState :=
  if (assocFindN tid s.xterms).isSome then s
  else connectPty ok tid (attachScrollback tid s)

/-- The buffer of a session's xterm, `none` when no xterm exists. -/
def bufferOf (s : HostState) (tid : Nat) : Option String :=
  (assocFindN tid s.xterms).map (·.buffer)

/-- The pending one-shot scrollback payload stashed for a session id. -/
def pendingOf (s : HostState) (tid : Nat) : Option String :=
  assocFindN tid s.savedScrollbacks

/-- `N` sequential `addTerminal()` calls. -/
def addSessions : Nat → HostState → HostState
  | 0, s => s
  | n + 1, s => addSessions n (addTerminal s)

/- ============================================================ -/
/- Debounced persistence (timed-trace model)                    -/
/- ============================================================ -/

/-- `debounce(fn, delay)` semantics for the call at time `t`: its timer
survives (and `fn` runs at `t + delay`) exactly when no later call arrives
strictly within the window — every other call time is either not after `t`
or at least `delay` later. -/
def noLaterCall (delay t : Nat) (triggers : List Nat) : Bool :=
  triggers.all (fun u => decide (u ≤ t ∨ t + delay ≤ u))

/-- The call times of a trigger trace whose debounce timer actually fires. -/
def debounceFires (delay : Nat) (triggers : List Nat) : List Nat :=
  triggers.filter (fun t => noLaterCall delay t triggers)

/-- The persisted writes produced by a trace: `triggers` are the times of
debounced `saveTerminalState()` calls (the auto-save effect after any
change to the session set, name, or active pointer), `flushes` the times
of `saveTerminalStateImmediate()` calls forced by app-hidden /
app-teardown events. `snap t` is the Session Host state at time `t`; each
write records the execution time and the state the save reads through the
refs at that moment — `t + delay` for a debounced write, `t` itself for a
forced flush (the flush does not cancel a pending debounce timer, matching
the source). -/
def persistedWrites (delay : Nat) (snap : Nat → HostState)
    (triggers flushes : List Nat) : List (Nat × HostState) :=
  (debounceFires delay triggers).map (fun t => (t + delay, snap (t + delay)))
    ++ flushes.map (fun t => (t, snap t))

/- ============================================================ -/
/- Helper lemmas                                                -/
/- ============================================================ -/

theorem assocFindN_eraseN_self {α : Type} (k : Nat) (l : List (Nat × α)) :
    assocFindN k (assocEraseN k l) = none := by
  induction l with
  | nil => rfl
  | cons hd tl ih =>
    obtain ⟨k', v⟩ := hd
    by_cases h : k' = k
    · simpa [assocEraseN, h] using ih
    · simpa [assocEraseN, assocFindN, h] using ih

theorem findIndex_range {α : Type} (p : α → Bool) (l : List α) :
    findIndex p l = -1 ∨ (0 ≤ findIndex p l ∧ findIndex p l < (l.length : Int)) := by
  induction l with
  | nil => exact Or.inl rfl
  | cons x rest ih =>
    by_cases hpx : p x = true
    · have hv : findIndex p (x :: rest) = 0 := by simp [findIndex, hpx]
      refine Or.inr ⟨by rw [hv], ?_⟩
      rw [hv]
      have hl : 0 < (x :: rest).length := by simp
      exact_mod_cast hl
    · have hpx' : p x = false := by simpa using hpx
      rcases ih with h1 | ⟨h2, h3⟩
      · refine Or.inl ?_
        simp [findIndex, hpx', h1]
      · have hv : findIndex p (x :: rest) = findIndex p rest + 1 := by
          simp only [findIndex, hpx', Bool.false_eq_true, if_false]
          rw [if_neg (by omega)]
        exact Or.inr ⟨by rw [hv]; omega, by
          rw [hv]
          have hlen : ((x :: rest).length : Int) = (rest.length : Int) + 1 := by
            simp
          rw [hlen]
          omega⟩

theorem findIndex_neg_of_none {α : Type} (p : α → Bool) (l : List α)
    (h : ∀ x ∈ l, p x = false) : findIndex p l = -1 := by
  induction l with
  | nil => rfl
  | cons x rest ih =>
    have hx := h x (List.mem_cons_self x rest)
    have hr := ih (fun y hy => h y (List.mem_cons_of_mem x hy))
    simp [findIndex, hx, hr]

theorem restoredTabs_length (base : Nat) (l : List TerminalInfo) :
    (restoredTabs base l).length = l.length := by
  induction l generalizing base with
  | nil => rfl
  | cons info rest ih => simp [restoredTabs, ih]

theorem restoredTabs_map_name (base : Nat) (l : List TerminalInfo) :
    (restoredTabs base l).map (·.name) = l.map (·.name) := by
  induction l generalizing base with
  | nil => rfl
  | cons info rest ih => simp [restoredTabs, ih]

theorem restoredTabs_map_id (base : Nat) (l : List TerminalInfo) :
    (restoredTabs base l).map (·.id) = (List.range l.length).map (fun k => base + k) := by
  induction l generalizing base with
  | nil => rfl
  | cons info rest ih =>
    simp only [restoredTabs, List.map_cons, List.length_cons,
      List.range_succ_eq_map, List.map_map, ih]
    refine congrArg₂ _ rfl ?_
    refine List.map_congr_left ?_
    intro k _
    simp [Function.comp]
    omega

theorem restoredPendings_find (l : List TerminalInfo) (base j : Nat)
    (old : List (Nat × String)) (h : j < l.length) :
    assocFindN (base + j) (restoredPendings base l ++ old)
      = (l.get? j).map (·.scrollback) := by
  induction l generalizing base j with
  | nil => simp at h
  | cons info rest ih =>
    cases j with
    | zero => simp [restoredPendings, assocFindN]
    | succ j =>
      have hne : ¬ (base = base + (j + 1)) := by omega
      have hj : j < rest.length := by simpa using h
      have key : assocFindN (base + (j + 1)) (restoredPendings base (info :: rest) ++ old)
          = assocFindN (base + (j + 1)) (restoredPendings (base + 1) rest ++ old) := by
        simp [restoredPendings, assocFindN, hne]
      rw [key, show base + (j + 1) = base + 1 + j from by omega, ih (base + 1) j hj]
      simp

theorem storeGet_storeSet_self (store : Store) (w : String) (st : TerminalStateData) :
    storeGet (storeSet store w st) w = some st := by
  simp [storeGet, storeSet, assocFindS]

theorem nodup_map_add_range (base n : Nat) :
    ((List.range n).map (fun k => base + k)).Nodup :=
  List.Nodup.map (fun a b h => by omega) (List.nodup_range n)

/- ============================================================ -/
/- Sequential session creation (for claim C8)                   -/
/- ============================================================ -/

/-- The tabs appended by a run of `addTerminal()` calls that starts with
fresh-id counter `idBase` and naming counter `numBase`. -/
def tabsFrom (idBase numBase : Nat) : Nat → List TerminalTab
  | 0 => []
  | n + 1 =>
      TerminalTab.mk idBase ("Terminal " ++ toString numBase) false
        :: tabsFrom (idBase + 1) (numBase + 1) n

theorem addSessions_spec (n : Nat) (s : HostState) :
    (addSessions n s).terminals = s.terminals ++ tabsFrom s.freshId s.nextTerminalNumber n ∧
    (addSessions n s).nextTerminalNumber = s.nextTerminalNumber + n ∧
    (addSessions n s).freshId = s.freshId + n ∧
    (addSessions n s).activeTerminalId
      = (if n = 0 then s.activeTerminalId else some (s.freshId + n - 1)) := by
  induction n generalizing s with
  | zero => simp [addSessions, tabsFrom]
  | succ m ih =>
    obtain ⟨h1, h2, h3, h4⟩ := ih (addTerminal s)
    refine ⟨?_, ?_, ?_, ?_⟩
    · rw [addSessions, h1]
      simp [addTerminal, tabsFrom]
    · rw [addSessions, h2]
      simp [addTerminal]
      omega
    · rw [addSessions, h3]
      simp [addTerminal]
      omega
    · rw [addSessions, h4]
      by_cases hm : m = 0
      · subst hm
        simp [addTerminal]
      · rw [if_neg hm, if_neg (Nat.succ_ne_zero m)]
        simp only [addTerminal]
        refine congrArg _ ?_
        omega

theorem tabsFrom_map_name (idb nb n : Nat) :
    (tabsFrom idb nb n).map (·.name)
      = (List.range n).map (fun k => "Terminal " ++ toString (nb + k)) := by
  induction n generalizing idb nb with
  | zero => rfl
  | succ m ih =>
    simp only [tabsFrom, List.map_cons, List.range_succ_eq_map, List.map_map, ih]
    refine congrArg₂ _ (by simp) ?_
    refine List.map_congr_left ?_
    intro k _
    simp [Function.comp]
    refine congrArg _ (congrArg _ ?_)
    omega

theorem tabsFrom_map_id (idb nb n : Nat) :
    (tabsFrom idb nb n).map (·.id) = (List.range n).map (fun k => idb + k) := by
  induction n generalizing idb nb with
  | zero => rfl
  | succ m ih =>
    simp only [tabsFrom, List.map_cons, List.range_succ_eq_map, List.map_map, ih]
    refine congrArg₂ _ (by simp) ?_
    refine List.map_congr_left ?_
    intro k _
    simp [Function.comp]
    omega

theorem tabsFrom_getLast (idb nb n : Nat) (h : 0 < n) :
    (tabsFrom idb nb n).getLast?
      = some (TerminalTab.mk (idb + n - 1) ("Terminal " ++ toString (nb + n - 1)) false) := by
  induction n generalizing idb nb with
  | zero => omega
  | succ m ih =>
    cases m with
    | zero => simp [tabsFrom]
    | succ k =>
      rw [show tabsFrom idb nb (k + 1 + 1)
            = TerminalTab.mk idb ("Terminal " ++ toString nb) false
                :: tabsFrom (idb + 1) (nb + 1) (k + 1) from rfl]
      rw [show tabsFrom (idb + 1) (nb + 1) (k + 1)
            = TerminalTab.mk (idb + 1) ("Terminal " ++ toString (nb + 1)) false
                :: tabsFrom (idb + 2) (nb + 2) k from rfl]
      rw [List.getLast?_cons_cons]
      rw [← show tabsFrom (idb + 1) (nb + 1) (k + 1)
            = TerminalTab.mk (idb + 1) ("Terminal " ++ toString (nb + 1)) false
                :: tabsFrom (idb + 2) (nb + 2) k from rfl]
      rw [ih (idb + 1) (nb + 1) (by omega)]
      refine congrArg _ ?_
      have e1 : idb + 1 + (k + 1) - 1 = idb + (k + 1 + 1) - 1 := by omega
      have e2 : nb + 1 + (k + 1) - 1 = nb + (k + 1 + 1) - 1 := by omega
      rw [e1, e2]

/-- C8: for all `N ≥ 1`, performing `N` sequential `addTerminal()` calls
with no removals, starting from a fresh workspace counter (empty session
list, counter at 1), yields sessions named exactly `Terminal 1` through
`Terminal N` with pairwise-distinct ids, the last-added session being
active; the counter is incremented on every creation (`removeTerminal`
never touches it, `addTerminal` always adds one), so it ends at `N + 1`. -/
theorem add_sessions_names (N : Nat) (s0 : HostState)
    (hN : 1 ≤ N) (hempty : s0.terminals = []) (hctr : s0.nextTerminalNumber = 1) :
    (addSessions N s0).terminals.map (·.name)
        = (List.range N).map (fun k => "Terminal " ++ toString (k + 1)) ∧
    ((addSessions N s0).terminals.map (·.id)).Nodup ∧
    (addSessions N s0).activeTerminalId
        = ((addSessions N s0).terminals.getLast?).map (·.id) ∧
    (addSessions N s0).nextTerminalNumber = N + 1 ∧
    (∀ s tid, (removeTerminal tid s).nextTerminalNumber = s.nextTerminalNumber) ∧
    (∀ s, (addTerminal s).nextTerminalNumber = s.nextTerminalNumber + 1) := by
  obtain ⟨h1, h2, h3, h4⟩ := addSessions_spec N s0
  rw [hempty] at h1
  rw [hctr] at h1 h2
  simp only [List.nil_append] at h1
  refine ⟨?_, ?_, ?_, ?_, ?_, ?_⟩
  · rw [h1, tabsFrom_map_name]
    refine List.map_congr_left ?_
    intro k _
    rw [Nat.add_comm]
  · rw [h1, tabsFrom_map_id]
    exact nodup_map_add_range s0.freshId N
  · rw [h4, if_neg (by omega), h1, tabsFrom_getLast s0.freshId 1 N (by omega)]
    simp
  · rw [h2]
    omega
  · intro s tid
    rfl
  · intro s
    rfl

/-- Witness for C8 at `N = 3` from a fresh workspace. -/
theorem add_sessions_names_witness :
    1 ≤ 3 ∧
      (addSessions 3 (HostState.mk [] none 1 [] [] [] [] 0 (some "w"))).terminals.map (·.name)
        = (List.range 3).map (fun k => "Terminal " ++ toString (k + 1)) :=
  ⟨by decide,
    (add_sessions_names 3 (HostState.mk [] none 1 [] [] [] [] 0 (some "w"))
      (by decide) rfl rfl).1⟩

/-- C2 (amended): while the terminal panel is open the visible session set
never stays at zero. Provided the workspace's persisted record is
quiescent — absent, or holding at most one session, which is what the
debounced save of this single-session host writes once it fires — removing
the sole remaining session results in exactly one session existing
afterward: the empty list triggers the reload effect, which recreates the
one persisted session or, with no usable record, one default session.
Removing a session while others remain is plain `removeTerminal`: no
replacement is created. (Without the quiescence hypothesis the claim is
false: a stale multi-session record is restored wholesale, see the
counterexample.) -/
theorem remove_sole_session_replaced (s s2 : HostState) (store : Store)
    (t : TerminalTab) (tid : Nat)
    (hsole : s.terminals = [t])
    (hstore : ∀ w saved, s.workspace = some w → storeGet store w = some saved →
        saved.terminals.length ≤ 1) :
    (removeSession store t.id s).terminals.length = 1 ∧
      (s2.terminals.filter (fun u => u.id ≠ tid) ≠ [] →
        removeSession store tid s2 = removeTerminal tid s2) := by
  constructor
  · have hrem : (removeTerminal t.id s).terminals = [] := by
      simp [removeTerminal, hsole]
    have hstep : removeSession store t.id s = loadSavedState (removeTerminal t.id s) store := by
      simp [removeSession, hrem]
    rw [hstep]
    cases hw : s.workspace with
    | none =>
        simp [loadSavedState, show (removeTerminal t.id s).workspace = none from hw,
          addTerminal, hrem]
    | some w =>
        cases hsg : storeGet store w with
        | none =>
            simp [loadSavedState, show (removeTerminal t.id s).workspace = some w from hw,
              hsg, addTerminal, hrem]
        | some saved =>
            have hle := hstore w saved hw hsg
            by_cases h0 : saved.terminals.length = 0
            · simp [loadSavedState, show (removeTerminal t.id s).workspace = some w from hw,
                hsg, h0, addTerminal, hrem]
            · have h1 : saved.terminals.length = 1 := by omega
              simp [loadSavedState, show (removeTerminal t.id s).workspace = some w from hw,
                hsg, h1, addTerminal, hrem, restoredTabs_length]
  · intro hne
    rcases hfe : s2.terminals.filter (fun u => u.id ≠ tid) with _ | ⟨a, l⟩
    · exact absurd hfe hne
    · have hterm : (removeTerminal tid s2).terminals = a :: l := by
        simp only [removeTerminal]
        exact hfe
      simp [removeSession, hterm]

/-- Witness for C2: a host with the sole session id 7 over an empty store;
after the removal exactly one session exists. -/
theorem remove_sole_session_replaced_witness :
    (HostState.mk [⟨7, "Terminal 1", true⟩] (some 7) 2 [] [7] [] [7] 8 (some "w")).terminals
        = [⟨7, "Terminal 1", true⟩] ∧
      (removeSession [] 7
          (HostState.mk [⟨7, "Terminal 1", true⟩] (some 7) 2 [] [7] [] [7] 8
            (some "w"))).terminals.length = 1 :=
  ⟨rfl,
    (remove_sole_session_replaced
      (HostState.mk [⟨7, "Terminal 1", true⟩] (some 7) 2 [] [7] [] [7] 8 (some "w"))
      (HostState.mk [⟨7, "Terminal 1", true⟩] (some 7) 2 [] [7] [] [7] 8 (some "w"))
      [] ⟨7, "Terminal 1", true⟩ 0 rfl
      (fun w saved _ hs => by simp [storeGet, assocFindS] at hs)).1⟩

/-- C3: for every restored session, the pending scrollback payload is
written into the session's buffer exactly once. After the pre-connect
phase of initialization the buffer already holds the payload followed by
the restoration-boundary marker and the payload ref is deleted;
initialization is literally the connect phase applied after that replay
phase (so the write precedes the live-process connection); afterwards the
payload is gone, a later `initializeTerminal` of the same id is a complete
no-op, and `switchTerminal` touches neither buffers nor pending
payloads. -/
theorem scrollback_replayed_once (s : HostState) (tid : Nat) (p : String)
    (hx : assocFindN tid s.xterms = none)
    (hp : pendingOf s tid = some p)
    (hlen : 0 < p.length) :
    bufferOf (attachScrollback tid s) tid = some (p ++ restorationMarker) ∧
    pendingOf (attachScrollback tid s) tid = none ∧
    initializeTerminal true tid s = connectPty true tid (attachScrollback tid s) ∧
    bufferOf (initializeTerminal true tid s) tid = some (p ++ restorationMarker) ∧
    pendingOf (initializeTerminal true tid s) tid = none ∧
    (∀ ok2, initializeTerminal ok2 tid (initializeTerminal true tid s)
        = initializeTerminal true tid s) ∧
    (∀ tid2, (switchTerminal tid2 (initializeTerminal true tid s)).xterms
          = (initializeTerminal true tid s).xterms ∧
        (switchTerminal tid2 (initializeTerminal true tid s)).savedScrollbacks
          = (initializeTerminal true tid s).savedScrollbacks) := by
  have hp' : assocFindN tid s.savedScrollbacks = some p := hp
  have hpend : pendingText (assocFindN tid s.savedScrollbacks) = some p := by
    rw [hp']
    simp [pendingText, hlen]
  have hatt : attachScrollback tid s
      = { s with
          xterms := (tid, XtermInstance.mk (p ++ restorationMarker)) :: s.xterms,
          savedScrollbacks := assocEraseN tid s.savedScrollbacks,
          serializeAddons := tid :: s.serializeAddons } := by
    simp [attachScrollback, hpend]
  have hinit : initializeTerminal true tid s = connectPty true tid (attachScrollback tid s) := by
    simp [initializeTerminal, hx]
  have hcx : (connectPty true tid (attachScrollback tid s)).xterms
      = (attachScrollback tid s).xterms := by
    simp [connectPty]
  have hbuf : bufferOf (attachScrollback tid s) tid = some (p ++ restorationMarker) := by
    rw [hatt]
    simp [bufferOf, assocFindN]
  have hpnone : pendingOf (attachScrollback tid s) tid = none := by
    rw [hatt]
    exact assocFindN_eraseN_self tid s.savedScrollbacks
  refine ⟨hbuf, hpnone, hinit, ?_, ?_, ?_, ?_⟩
  · rw [hinit, bufferOf, hcx]
    exact hbuf
  · rw [hinit]
    exact hpnone
  · intro ok2
    have hx' : (assocFindN tid (initializeTerminal true tid s).xterms).isSome = true := by
      rw [hinit, hcx, hatt]
      simp [assocFindN]
    revert hx'
    generalize initializeTerminal true tid s = s'
    intro hx'
    simp [initializeTerminal, hx']
  · intro tid2
    exact ⟨rfl, rfl⟩

/-- Witness for C3: a restored session with pending payload `"abc"`. -/
theorem scrollback_replayed_once_witness :
    0 < "abc".length ∧
      bufferOf
          (attachScrollback 4
            (HostState.mk [⟨4, "Terminal 1", false⟩] (some 4) 2 [] [] [(4, "abc")] [] 5
              (some "w"))) 4
        = some ("abc" ++ restorationMarker) :=
  ⟨by decide,
    (scrollback_replayed_once
      (HostState.mk [⟨4, "Terminal 1", false⟩] (some 4) 2 [] [] [(4, "abc")] [] 5 (some "w"))
      4 "abc" rfl rfl (by decide)).1⟩

theorem isEmpty_false_of_ne_nil {α : Type} {l : List α} (h : l ≠ []) :
    l.isEmpty = false := by
  rcases hl : l with _ | ⟨a, rest⟩
  · exact absurd hl h
  · rfl

/-- C6: `saveTerminalStateImmediate` includes exactly the sessions whose
serialize addon exists (initialization completed), in list order, and
skips the save entirely — leaving the workspace's persisted record
untouched — when no session qualifies. -/
theorem save_includes_exactly_initialized (s : HostState) (store : Store) (w : String)
    (hw : s.workspace = some w) (hne : s.terminals ≠ []) :
    (s.terminals.filter (fun t => s.serializeAddons.contains t.id) = [] →
        saveTerminalStateImmediate s store = store) ∧
    (s.terminals.filter (fun t => s.serializeAddons.contains t.id) ≠ [] →
        ∃ rec, storeGet (saveTerminalStateImmediate s store) w = some rec ∧
          rec.terminals = (s.terminals.filter
              (fun t => s.serializeAddons.contains t.id)).map (mkTerminalInfo s w)) := by
  have hie : s.terminals.isEmpty = false := isEmpty_false_of_ne_nil hne
  constructor
  · intro hfil
    simp only [saveTerminalStateImmediate, hw]
    rw [if_neg (by rw [hie]; exact Bool.false_ne_true),
      if_pos (by rw [hfil]; rfl)]
  · intro hfil
    have hfie : (s.terminals.filter (fun t => s.serializeAddons.contains t.id)).isEmpty
        = false := isEmpty_false_of_ne_nil hfil
    have hsave : saveTerminalStateImmediate s store
        = storeSet store w
            { terminals := (s.terminals.filter
                  (fun t => s.serializeAddons.contains t.id)).map (mkTerminalInfo s w),
              activeIndex := findIndex (fun t => some t.id = s.activeTerminalId)
                  (s.terminals.filter (fun t => s.serializeAddons.contains t.id)),
              nextTerminalNumber := s.nextTerminalNumber } := by
      simp only [saveTerminalStateImmediate, hw]
      rw [if_neg (by rw [hie]; exact Bool.false_ne_true),
        if_neg (by rw [hfie]; exact Bool.false_ne_true)]
    exact ⟨_, by rw [hsave]; exact storeGet_storeSet_self store w _, rfl⟩

/-- Witness for C6: a host with one completed and one still-initializing
session saves a record that holds exactly the completed one. -/
theorem save_includes_exactly_initialized_witness :
    (HostState.mk [⟨1, "Terminal 1", true⟩, ⟨2, "Terminal 2", false⟩] (some 1) 3
        [(1, ⟨"out"⟩)] [1] [] [1] 3 (some "w")).terminals ≠ [] ∧
      (∃ rec,
        storeGet
            (saveTerminalStateImmediate
              (HostState.mk [⟨1, "Terminal 1", true⟩, ⟨2, "Terminal 2", false⟩] (some 1) 3
                [(1, ⟨"out"⟩)] [1] [] [1] 3 (some "w")) []) "w" = some rec ∧
          rec.terminals
            = ((HostState.mk [⟨1, "Terminal 1", true⟩, ⟨2, "Terminal 2", false⟩] (some 1) 3
                  [(1, ⟨"out"⟩)] [1] [] [1] 3 (some "w")).terminals.filter
                (fun t =>
                  (HostState.mk [⟨1, "Terminal 1", true⟩, ⟨2, "Terminal 2", false⟩] (some 1) 3
                    [(1, ⟨"out"⟩)] [1] [] [1] 3 (some "w")).serializeAddons.contains t.id)).map
              (mkTerminalInfo
                (HostState.mk [⟨1, "Terminal 1", true⟩, ⟨2, "Terminal 2", false⟩] (some 1) 3
                  [(1, ⟨"out"⟩)] [1] [] [1] 3 (some "w")) "w")) :=
  ⟨by decide,
    (save_includes_exactly_initialized
      (HostState.mk [⟨1, "Terminal 1", true⟩, ⟨2, "Terminal 2", false⟩] (some 1) 3
        [(1, ⟨"out"⟩)] [1] [] [1] 3 (some "w")) [] "w" rfl (by decide)).2 (by decide)⟩

/-- C7: `loadSavedState` with a persisted record holding at least one
session recreates the sessions in saved order with fresh counter-allocated
(pairwise-distinct) ids, attaches each saved scrollback as the pending
payload of the session at the same position, takes over the saved naming
counter, and activates the session at the saved index when it lies in
`[0, len)` and the session at index 0 otherwise; with no persisted record
it falls through to `addTerminal`, creating exactly one default session
when the list was empty. -/
theorem restore_state_spec (s : HostState) (store : Store) (w : String)
    (saved : TerminalStateData) (hw : s.workspace = some w) :
    (storeGet store w = some saved → saved.terminals ≠ [] →
      (loadSavedState s store).terminals.map (·.name) = saved.terminals.map (·.name) ∧
      (loadSavedState s store).terminals.map (·.id)
          = (List.range saved.terminals.length).map (fun k => s.freshId + k) ∧
      ((loadSavedState s store).terminals.map (·.id)).Nodup ∧
      (∀ j info, saved.terminals.get? j = some info →
          pendingOf (loadSavedState s store) (s.freshId + j) = some info.scrollback) ∧
      (loadSavedState s store).nextTerminalNumber = saved.nextTerminalNumber ∧
      (0 ≤ saved.activeIndex → saved.activeIndex < (saved.terminals.length : Int) →
        (loadSavedState s store).activeTerminalId
          = ((loadSavedState s store).terminals.get? saved.activeIndex.toNat).map (·.id)) ∧
      ((saved.activeIndex < 0 ∨ (saved.terminals.length : Int) ≤ saved.activeIndex) →
        (loadSavedState s store).activeTerminalId
          = ((loadSavedState s store).terminals.get? 0).map (·.id))) ∧
    (storeGet store w = none →
      loadSavedState s store = addTerminal s ∧
      (s.terminals = [] → (loadSavedState s store).terminals.length = 1 ∧
        (loadSavedState s store).terminals.map (·.name)
          = ["Terminal " ++ toString s.nextTerminalNumber])) := by
  constructor
  · intro hsg hnz
    have hlen : saved.terminals.length > 0 := List.length_pos.mpr hnz
    refine ⟨?_, ?_, ?_, ?_, ?_, ?_, ?_⟩
    · simp [loadSavedState, hw, hsg, hlen, restoredTabs_map_name]
    · simp [loadSavedState, hw, hsg, hlen, restoredTabs_map_id]
    · simp only [loadSavedState, hw, hsg, hlen, if_pos]
      simp [restoredTabs_map_id]
      exact nodup_map_add_range s.freshId saved.terminals.length
    · intro j info hj
      have hjlen : j < saved.terminals.length := by
        by_contra hc
        push_neg at hc
        rw [List.get?_eq_none.mpr hc] at hj
        simp at hj
      have hfind := restoredPendings_find saved.terminals s.freshId j s.savedScrollbacks hjlen
      have hgoal : pendingOf (loadSavedState s store) (s.freshId + j)
          = assocFindN (s.freshId + j)
              (restoredPendings s.freshId saved.terminals ++ s.savedScrollbacks) := by
        simp [loadSavedState, hw, hsg, hlen, pendingOf]
      rw [hgoal, hfind, hj]
      rfl
    · simp [loadSavedState, hw, hsg, hlen]
    · intro h0 hlt
      have hcond : 0 ≤ saved.activeIndex ∧ saved.activeIndex < (saved.terminals.length : Int) :=
        ⟨h0, hlt⟩
      simp [loadSavedState, hw, hsg, hlen, hcond]
    · intro hout
      have hcond : ¬ (0 ≤ saved.activeIndex ∧ saved.activeIndex < (saved.terminals.length : Int)) := by
        rintro ⟨h1, h2⟩
        rcases hout with h | h <;> omega
      simp [loadSavedState, hw, hsg, hlen, hcond]
  · intro hsg
    refine ⟨by simp [loadSavedState, hw, hsg], ?_⟩
    intro hempty
    constructor
    · simp [loadSavedState, hw, hsg, addTerminal, hempty]
    · simp [loadSavedState, hw, hsg, addTerminal, hempty]

/-- Witness for C7: one saved session with scrollback `"sb"` and active
index 0 is restored in order with its payload attached. -/
theorem restore_state_spec_witness :
    storeGet [("w", TerminalStateData.mk [⟨9, "Terminal 1", "w", "sb"⟩] 0 2)] "w"
        = some (TerminalStateData.mk [⟨9, "Terminal 1", "w", "sb"⟩] 0 2) ∧
      (loadSavedState (HostState.mk [] none 1 [] [] [] [] 0 (some "w"))
          [("w", TerminalStateData.mk [⟨9, "Terminal 1", "w", "sb"⟩] 0 2)]).terminals.map (·.name)
        = [⟨9, "Terminal 1", "w", "sb"⟩].map (TerminalInfo.name) :=
  ⟨rfl,
    ((restore_state_spec (HostState.mk [] none 1 [] [] [] [] 0 (some "w"))
      [("w", TerminalStateData.mk [⟨9, "Terminal 1", "w", "sb"⟩] 0 2)] "w"
      (TerminalStateData.mk [⟨9, "Terminal 1", "w", "sb"⟩] 0 2) rfl).1 rfl (by decide)).1⟩

/-- C10: when the active session has not completed initialization at the
moment the save runs — so the filter excludes it — the persisted
`activeIndex` is `-1` (the `findIndex` miss), and a later restore of that
record falls back to activating the session at index 0. -/
theorem uninitialized_active_index (s s1 : HostState) (store : Store) (w : String) (a : Nat)
    (hw : s.workspace = some w) (ha : s.activeTerminalId = some a)
    (hnoA : s.serializeAddons.contains a = false)
    (hne : s.terminals ≠ [])
    (hfil : s.terminals.filter (fun t => s.serializeAddons.contains t.id) ≠ [])
    (hw1 : s1.workspace = some w) :
    ∃ rec, storeGet (saveTerminalStateImmediate s store) w = some rec ∧
      rec.activeIndex = -1 ∧
      rec.terminals ≠ [] ∧
      (loadSavedState s1 (saveTerminalStateImmediate s store)).activeTerminalId
        = ((loadSavedState s1 (saveTerminalStateImmediate s store)).terminals.get? 0).map
            (·.id) := by
  have hie : s.terminals.isEmpty = false := isEmpty_false_of_ne_nil hne
  have hfie : (s.terminals.filter (fun t => s.serializeAddons.contains t.id)).isEmpty
      = false := isEmpty_false_of_ne_nil hfil
  have hidx : findIndex (fun t => some t.id = s.activeTerminalId)
      (s.terminals.filter (fun t => s.serializeAddons.contains t.id)) = -1 := by
    apply findIndex_neg_of_none
    intro t htmem
    have hmem := List.mem_filter.mp htmem
    have hta : t.id ≠ a := by
      intro he
      rw [he] at hmem
      rw [hnoA] at hmem
      exact Bool.false_ne_true hmem.2
    rw [ha]
    simp [hta]
  have hsave : saveTerminalStateImmediate s store
      = storeSet store w
          { terminals := (s.terminals.filter
                (fun t => s.serializeAddons.contains t.id)).map (mkTerminalInfo s w),
            activeIndex := -1,
            nextTerminalNumber := s.nextTerminalNumber } := by
    simp only [saveTerminalStateImmediate, hw]
    rw [if_neg (by rw [hie]; exact Bool.false_ne_true),
      if_neg (by rw [hfie]; exact Bool.false_ne_true), hidx]
  have hsg : storeGet (saveTerminalStateImmediate s store) w
      = some { terminals := (s.terminals.filter
                  (fun t => s.serializeAddons.contains t.id)).map (mkTerminalInfo s w),
               activeIndex := -1,
               nextTerminalNumber := s.nextTerminalNumber } := by
    rw [hsave]
    exact storeGet_storeSet_self store w _
  refine ⟨_, hsg, rfl, ?_, ?_⟩
  · simpa using hfil
  · simp only [loadSavedState, hw1, hsg]
    rw [if_pos (by rw [List.length_map]; exact List.length_pos.mpr hfil)]
    simp

/-- Witness for C10: session 2 is active but still initializing; the saved
record carries `activeIndex = -1` and the restore activates index 0. -/
theorem uninitialized_active_index_witness :
    ([1] : List Nat).contains 2 = false ∧
      (∃ rec,
        storeGet
            (saveTerminalStateImmediate
              (HostState.mk [⟨1, "Terminal 1", true⟩, ⟨2, "Terminal 2", false⟩] (some 2) 3
                [(1, ⟨"x"⟩)] [1] [] [1] 3 (some "w")) []) "w" = some rec ∧
          rec.activeIndex = -1 ∧
          rec.terminals ≠ [] ∧
          (loadSavedState (HostState.mk [] none 1 [] [] [] [] 0 (some "w"))
              (saveTerminalStateImmediate
                (HostState.mk [⟨1, "Terminal 1", true⟩, ⟨2, "Terminal 2", false⟩] (some 2) 3
                  [(1, ⟨"x"⟩)] [1] [] [1] 3 (some "w")) [])).activeTerminalId
            = ((loadSavedState (HostState.mk [] none 1 [] [] [] [] 0 (some "w"))
                (saveTerminalStateImmediate
                  (HostState.mk [⟨1, "Terminal 1", true⟩, ⟨2, "Terminal 2", false⟩] (some 2) 3
                    [(1, ⟨"x"⟩)] [1] [] [1] 3 (some "w")) [])).terminals.get? 0).map (·.id)) :=
  ⟨rfl,
    uninitialized_active_index
      (HostState.mk [⟨1, "Terminal 1", true⟩, ⟨2, "Terminal 2", false⟩] (some 2) 3
        [(1, ⟨"x"⟩)] [1] [] [1] 3 (some "w"))
      (HostState.mk [] none 1 [] [] [] [] 0 (some "w"))
      [] "w" 2 rfl rfl rfl (by decide) (by decide) rfl⟩

theorem restoredTabs_id_ge (base : Nat) (l : List TerminalInfo) :
    ∀ t ∈ restoredTabs base l, base ≤ t.id := by
  induction l generalizing base with
  | nil =>
      intro t ht
      simp [restoredTabs] at ht
  | cons info rest ih =>
      intro t ht
      simp only [restoredTabs, List.mem_cons] at ht
      rcases ht with rfl | h
      · simp
      · have := ih (base + 1) t h
        omega

theorem restoredTabs_pending_map (base : Nat) (l : List TerminalInfo)
    (old : List (Nat × String)) :
    (restoredTabs base l).map (fun t => assocFindN t.id (restoredPendings base l ++ old))
      = l.map (fun info => some info.scrollback) := by
  induction l generalizing base with
  | nil => rfl
  | cons info rest ih =>
      simp only [restoredTabs, restoredPendings, List.map_cons, List.cons_append]
      refine congrArg₂ List.cons ?_ ?_
      · simp [assocFindN]
      · have hcongr : ∀ t ∈ restoredTabs (base + 1) rest,
            assocFindN t.id
                ((base, info.scrollback) :: (restoredPendings (base + 1) rest ++ old))
              = assocFindN t.id (restoredPendings (base + 1) rest ++ old) := by
          intro t ht
          have hge := restoredTabs_id_ge (base + 1) rest t ht
          have hne : ¬ (base = t.id) := by omega
          simp [assocFindN, hne]
        rw [List.map_congr_left hcongr]
        exact ih (base + 1)

/-- A host with two sessions, the first initialized (serialize addon and a
buffered xterm exist), the second still initializing. -/
def cexHost : HostState :=
  HostState.mk [⟨0, "Terminal 1", true⟩, ⟨1, "Terminal 2", false⟩] (some 0) 3
    [(0, ⟨"hello"⟩)] [0] [] [0] 2 (some "w")

/-- A freshly opened host on the same workspace, before restoration. -/
def cexRestart : HostState :=
  HostState.mk [] none 1 [] [] [] [] 10 (some "w")

/-- C1 as literally stated fails: in a state with two sessions of which at
least one (but not every one) has completed initialization, save followed
by restore does not reproduce the session list's ordered `{name,
scrollback}` pairs — the still-initializing session is dropped, so the
restored list is shorter. -/
theorem roundtrip_claim_counterexample :
    (∃ t ∈ cexHost.terminals, cexHost.serializeAddons.contains t.id = true) ∧
      ¬ ((loadSavedState cexRestart (saveTerminalStateImmediate cexHost [])).terminals.map
            (fun t => (t.name,
              pendingOf (loadSavedState cexRestart (saveTerminalStateImmediate cexHost []))
                t.id))
          = cexHost.terminals.map
              (fun t => (t.name, some (serializeScrollback cexHost t.id)))) := by
  decide

/-- C1 (amended): for every workspace and every session-host state in
which every session has completed initialization and the active pointer
refers to a listed session, `saveTerminalStateImmediate` followed
immediately by `loadSavedState` on the same workspace yields a session
list with the same ordered `{name, scrollback}` pairs (the scrollback of a
restored session being its attached pending payload) and the active
session at the same position, with only the ids differing — the restored
ids are freshly allocated and pairwise distinct. -/
theorem roundtrip_preserves_pairs (s s1 : HostState) (store : Store) (w : String)
    (hw : s.workspace = some w)
    (hall : ∀ t ∈ s.terminals, s.serializeAddons.contains t.id = true)
    (hne : s.terminals ≠ [])
    (hw1 : s1.workspace = some w) :
    ((loadSavedState s1 (saveTerminalStateImmediate s store)).terminals.map (·.name)
        = s.terminals.map (·.name)) ∧
    ((loadSavedState s1 (saveTerminalStateImmediate s store)).terminals.map
        (fun t => pendingOf (loadSavedState s1 (saveTerminalStateImmediate s store)) t.id)
        = s.terminals.map (fun t => some (serializeScrollback s t.id))) ∧
    (((loadSavedState s1 (saveTerminalStateImmediate s store)).terminals.map (·.id)).Nodup) ∧
    (∀ i : Nat, findIndex (fun t => some t.id = s.activeTerminalId) s.terminals = (i : Int) →
      (loadSavedState s1 (saveTerminalStateImmediate s store)).activeTerminalId
        = ((loadSavedState s1 (saveTerminalStateImmediate s store)).terminals.get? i).map
            (·.id)) := by
  have hie : s.terminals.isEmpty = false := isEmpty_false_of_ne_nil hne
  have hfil : s.terminals.filter (fun t => s.serializeAddons.contains t.id) = s.terminals :=
    List.filter_eq_self.mpr hall
  have hfie : (s.terminals.filter (fun t => s.serializeAddons.contains t.id)).isEmpty
      = false := by rw [hfil]; exact hie
  have hsave : saveTerminalStateImmediate s store
      = storeSet store w
          { terminals := s.terminals.map (mkTerminalInfo s w),
            activeIndex := findIndex (fun t => some t.id = s.activeTerminalId) s.terminals,
            nextTerminalNumber := s.nextTerminalNumber } := by
    simp only [saveTerminalStateImmediate, hw]
    rw [if_neg (by rw [hie]; exact Bool.false_ne_true),
      if_neg (by rw [hfie]; exact Bool.false_ne_true), hfil]
  have hsg : storeGet (saveTerminalStateImmediate s store) w
      = some { terminals := s.terminals.map (mkTerminalInfo s w),
               activeIndex := findIndex (fun t => some t.id = s.activeTerminalId) s.terminals,
               nextTerminalNumber := s.nextTerminalNumber } := by
    rw [hsave]
    exact storeGet_storeSet_self store w _
  have hlen0 : (s.terminals.map (mkTerminalInfo s w)).length > 0 := by
    rw [List.length_map]
    exact List.length_pos.mpr hne
  refine ⟨?_, ?_, ?_, ?_⟩
  · simp only [loadSavedState, hw1, hsg]
    rw [if_pos hlen0]
    show (restoredTabs s1.freshId (s.terminals.map (mkTerminalInfo s w))).map (·.name)
        = s.terminals.map (·.name)
    rw [restoredTabs_map_name, List.map_map]
    rfl
  · simp only [loadSavedState, hw1, hsg]
    rw [if_pos hlen0]
    show (restoredTabs s1.freshId (s.terminals.map (mkTerminalInfo s w))).map
          (fun t => pendingOf _ t.id)
        = s.terminals.map (fun t => some (serializeScrollback s t.id))
    simp only [pendingOf]
    rw [restoredTabs_pending_map, List.map_map]
    rfl
  · simp only [loadSavedState, hw1, hsg]
    rw [if_pos hlen0]
    show ((restoredTabs s1.freshId (s.terminals.map (mkTerminalInfo s w))).map (·.id)).Nodup
    rw [restoredTabs_map_id, List.length_map]
    exact nodup_map_add_range s1.freshId s.terminals.length
  · intro i hi
    have hrange := findIndex_range (fun t => some t.id = s.activeTerminalId) s.terminals
    have hi_lt : ((i : Nat) : Int) < (s.terminals.length : Int) := by
      rcases hrange with h | ⟨h1, h2⟩
      · rw [hi] at h
        omega
      · rw [hi] at h2
        exact h2
    simp only [loadSavedState, hw1, hsg]
    rw [if_pos hlen0, hi]
    rw [if_pos (⟨by omega, by rw [List.length_map]; exact_mod_cast hi_lt⟩ :
      0 ≤ ((i : Nat) : Int) ∧ ((i : Nat) : Int)
        < ((s.terminals.map (mkTerminalInfo s w)).length : Int))]
    rw [show ((i : Nat) : Int).toNat = i from Int.toNat_natCast i]

/-- Witness for the amended C1: one fully initialized session with
buffered output `"hi"` round-trips to the same name list. -/
theorem roundtrip_preserves_pairs_witness :
    (∀ t ∈ (HostState.mk [⟨0, "Terminal 1", true⟩] (some 0) 2 [(0, ⟨"hi"⟩)] [0] [] [0] 1
        (some "w")).terminals,
      (HostState.mk [⟨0, "Terminal 1", true⟩] (some 0) 2 [(0, ⟨"hi"⟩)] [0] [] [0] 1
        (some "w")).serializeAddons.contains t.id = true) ∧
      (loadSavedState (HostState.mk [] none 1 [] [] [] [] 5 (some "w"))
          (saveTerminalStateImmediate
            (HostState.mk [⟨0, "Terminal 1", true⟩] (some 0) 2 [(0, ⟨"hi"⟩)] [0] [] [0] 1
              (some "w")) [])).terminals.map (·.name)
        = (HostState.mk [⟨0, "Terminal 1", true⟩] (some 0) 2 [(0, ⟨"hi"⟩)] [0] [] [0] 1
            (some "w")).terminals.map (·.name) :=
  ⟨by decide,
    (roundtrip_preserves_pairs
      (HostState.mk [⟨0, "Terminal 1", true⟩] (some 0) 2 [(0, ⟨"hi"⟩)] [0] [] [0] 1 (some "w"))
      (HostState.mk [] none 1 [] [] [] [] 5 (some "w"))
      [] "w" rfl (by decide) (by decide) rfl).1⟩

/-- C4: persistence is debounced — five state-changing operations whose
auto-save triggers fall in a 100 ms window (well inside the 500 ms
quiescence delay) produce exactly one persisted write, executed 500 ms
after the last trigger and reading the host state at that moment, which
under quiescence is the final state; an application-hidden or
application-teardown flush is a write at that very instant of the state at
that instant, bypassing the debounce window. -/
theorem debounced_save_coalesces (t1 t2 t3 t4 t5 : Nat) (snap : Nat → HostState)
    (h12 : t1 < t2) (h23 : t2 < t3) (h34 : t3 < t4) (h45 : t4 < t5)
    (hwin : t5 - t1 ≤ 100) :
    debounceFires 500 [t1, t2, t3, t4, t5] = [t5] ∧
    persistedWrites 500 snap [t1, t2, t3, t4, t5] [] = [(t5 + 500, snap (t5 + 500))] ∧
    ((∀ u, t5 ≤ u → snap u = snap t5) →
      persistedWrites 500 snap [t1, t2, t3, t4, t5] [] = [(t5 + 500, snap t5)]) ∧
    (∀ (tf : Nat) (triggers : List Nat),
      (tf, snap tf) ∈ persistedWrites 500 snap triggers [tf]) := by
  have e1 : noLaterCall 500 t1 [t1, t2, t3, t4, t5] = false := by
    simp [noLaterCall]
    omega
  have e2 : noLaterCall 500 t2 [t1, t2, t3, t4, t5] = false := by
    simp [noLaterCall]
    omega
  have e3 : noLaterCall 500 t3 [t1, t2, t3, t4, t5] = false := by
    simp [noLaterCall]
    omega
  have e4 : noLaterCall 500 t4 [t1, t2, t3, t4, t5] = false := by
    simp [noLaterCall]
    omega
  have e5 : noLaterCall 500 t5 [t1, t2, t3, t4, t5] = true := by
    simp [noLaterCall]
    omega
  have hfires : debounceFires 500 [t1, t2, t3, t4, t5] = [t5] := by
    simp [debounceFires, e1, e2, e3, e4, e5]
  refine ⟨hfires, ?_, ?_, ?_⟩
  · simp [persistedWrites, hfires]
  · intro hconst
    simp [persistedWrites, hfires, hconst (t5 + 500) (by omega)]
  · intro tf triggers
    simp [persistedWrites]

/-- Witness for C4: triggers at 0, 25, 50, 75, 100 ms produce the single
write at 600 ms. -/
theorem debounced_save_coalesces_witness :
    (0 : Nat) < 25 ∧
      persistedWrites 500 (fun _ => HostState.mk [] none 1 [] [] [] [] 0 none)
          [0, 25, 50, 75, 100] []
        = [(100 + 500,
            (fun _ => HostState.mk [] none 1 [] [] [] [] 0 none) (100 + 500))] :=
  ⟨by decide,
    (debounced_save_coalesces 0 25 50 75 100
      (fun _ => HostState.mk [] none 1 [] [] [] [] 0 none)
      (by decide) (by decide) (by decide) (by decide) (by decide)).2.1⟩

/-- A stale persisted record for workspace `"w"` still holding two
sessions — the state left behind when two restored sessions are closed in
quick succession, faster than the 500 ms debounced save can run. -/
def cexStaleStore : Store :=
  [("w", TerminalStateData.mk
      [⟨1, "Terminal 1", "w", ""⟩, ⟨2, "Terminal 2", "w", ""⟩] 0 3)]

/-- The host at that moment: exactly one session left. -/
def cexSoleHost : HostState :=
  HostState.mk [⟨5, "Terminal 2", true⟩] (some 5) 3 [(5, ⟨""⟩)] [5] [] [5] 6 (some "w")

/-- C2 as literally stated fails: removing the sole remaining session of
`cexSoleHost` while the workspace's persisted record still holds two
sessions does not leave exactly one session — the reload effect restores
the stale record wholesale, so two sessions exist afterward. -/
theorem remove_sole_session_claim_counterexample :
    cexSoleHost.terminals = [⟨5, "Terminal 2", true⟩] ∧
      (removeSession cexStaleStore 5 cexSoleHost).terminals.length = 2 ∧
      (removeSession cexStaleStore 5 cexSoleHost).terminals.length ≠ 1 := by
  decide
